import Mathlib

/-
Verification of the Media-Tracker pipeline
(src/Article_extraction_with_pagination.py).

The Python source is shallowly embedded below.  External collaborators
(the `requests`/`newspaper` network layer, BeautifulSoup's tag lookup,
the `dateparser` library, spaCy's entity tagger) are modelled as explicit
oracle inputs: every call the source makes to one of them is represented
by a function-valued parameter, and the source's own control flow and
data manipulation are translated line by line.
-/

namespace MediaTracker

/-! ## Dates

Python `datetime.date` / `datetime.datetime` values, as far as the source
uses them: calendar fields, optional timezone info (`tzinfo`), lexicographic
comparison of dates, and `%Y-%m-%d` formatting. -/

/-- A calendar date (the result of Python's `datetime.date()`). -/
structure Date where
  year : Nat
  month : Nat
  day : Nat
deriving DecidableEq, Repr

/-- Python date comparison `a <= b`: lexicographic on (year, month, day). -/
def Date.ble (a b : Date) : Bool :=
  decide (a.year < b.year) ||
    (decide (a.year = b.year) &&
      (decide (a.month < b.month) ||
        (decide (a.month = b.month) && decide (a.day ≤ b.day))))

/-- A Python `datetime.datetime`: wall-clock fields plus optional
timezone info (`tzinfo`); `tz = none` is a naive datetime. -/
structure DateTime where
  date : Date
  hour : Nat
  minute : Nat
  second : Nat
  tz : Option Int
deriving DecidableEq, Repr

/-- Source `_make_naive`: if the datetime carries timezone info, drop it
(`dt.replace(tzinfo=None)` keeps the wall-clock fields); otherwise return
the value unchanged. -/
def make_naive (dt : DateTime) : DateTime :=
  if dt.tz.isSome then { dt with tz := none } else dt

/-- Zero-pad a numeral to two digits, as `%m`/`%d` do. -/
def pad2 (n : Nat) : String :=
  if n < 10 then "0" ++ toString n else toString n

/-- Zero-pad a numeral to four digits, as `%Y` does. -/
def pad4 (n : Nat) : String :=
  if n < 10 then "000" ++ toString n
  else if n < 100 then "00" ++ toString n
  else if n < 1000 then "0" ++ toString n
  else toString n

/-- Python `dt.strftime('%Y-%m-%d')` restricted to the date fields. -/
def fmtDate (d : Date) : String :=
  pad4 d.year ++ "-" ++ pad2 d.month ++ "-" ++ pad2 d.day

/-! ## Strings: Python substring membership -/

/-- `needle` occurs as a contiguous sublist of the haystack. -/
def subListOf (needle : List Char) : List Char → Bool
  | [] => needle.isEmpty
  | c :: rest => needle.isPrefixOf (c :: rest) || subListOf needle rest

/-- Python `needle in hay` on strings: substring membership. -/
def pyIn (needle hay : String) : Bool :=
  subListOf needle.toList hay.toList

/-- Python `str.lower()` (character-wise; the source's strings are
ASCII).  List-based so that concrete instances reduce in the kernel. -/
def lowerStr (s : String) : String :=
  String.mk (s.toList.map Char.toLower)

/-! ## Date parsing oracles

`dateparser.parse` and `datetime.strptime` are external; `strptime` with
the fixed `"%Y%m%d%H%M%S"` format is modelled exactly (fixed-width digits
with field range checks, raising — here: `none` — on anything else), and
`dateparser.parse` is modelled on the purely numeric shapes the URL regex
can hand it (`YYYYMMDD` and `YYYY-MM-DD`-style strings). -/

/-- Numeric value of a digit string. -/
def digitsToNat (cs : List Char) : Nat :=
  cs.foldl (fun n c => n * 10 + (c.toNat - '0'.toNat)) 0

/-- Field-range check shared by the numeric date parsers. -/
def validDate (m d : Nat) : Bool :=
  decide (1 ≤ m) && decide (m ≤ 12) && decide (1 ≤ d) && decide (d ≤ 31)

/-- `datetime.strptime(val, "%Y%m%d%H%M%S")`, returning `none` where
Python raises `ValueError` (wrapped in the source's `try`/`except`). -/
def strptime14 (cs : List Char) : Option DateTime :=
  if cs.length = 14 ∧ cs.all Char.isDigit then
    let y := digitsToNat (cs.take 4)
    let mo := digitsToNat ((cs.drop 4).take 2)
    let d := digitsToNat ((cs.drop 6).take 2)
    let h := digitsToNat ((cs.drop 8).take 2)
    let mi := digitsToNat ((cs.drop 10).take 2)
    let s := digitsToNat ((cs.drop 12).take 2)
    if validDate mo d && decide (h < 24) && decide (mi < 60) && decide (s < 60) then
      some ⟨⟨y, mo, d⟩, h, mi, s, none⟩
    else none
  else none

/-- Model of the external `dateparser.parse` on the numeric strings the
URL regex can produce: an 8-digit `YYYYMMDD` run, or a ten-character
`YYYY-MM-DD` / `YYYY/MM/DD` (separators independent).  Both parse to
midnight of that day with no timezone; anything invalid yields `none`,
matching dateparser's `None` result. -/
def dateparser_parse_model (s : String) : Option DateTime :=
  let cs := s.toList
  if cs.length = 8 ∧ cs.all Char.isDigit then
    let y := digitsToNat (cs.take 4)
    let mo := digitsToNat ((cs.drop 4).take 2)
    let d := digitsToNat ((cs.drop 6).take 2)
    if validDate mo d then some ⟨⟨y, mo, d⟩, 0, 0, 0, none⟩ else none
  else if cs.length = 10 ∧ (cs.take 4).all Char.isDigit
      ∧ ((cs.drop 4).take 1).all (fun c => c = '-' ∨ c = '/')
      ∧ ((cs.drop 5).take 2).all Char.isDigit
      ∧ ((cs.drop 7).take 1).all (fun c => c = '-' ∨ c = '/')
      ∧ ((cs.drop 8).take 2).all Char.isDigit then
    let y := digitsToNat (cs.take 4)
    let mo := digitsToNat ((cs.drop 5).take 2)
    let d := digitsToNat ((cs.drop 8).take 2)
    if validDate mo d then some ⟨⟨y, mo, d⟩, 0, 0, 0, none⟩ else none
  else none

/-! ## `extract_date_from_url`: the regex
`(\d{4}[-. /]\d{2}[-. /]\d{2})|(\d{8})|(\d{14})` (separator class: dash or slash) under Python `re.search`
semantics: scan start positions left to right; at each position try the
three alternatives in written order; every alternative is a fixed-width
token sequence, so matching is deterministic. -/

/-- The first `n` characters, provided they are all digits. -/
def takeDigitsExact (n : Nat) (cs : List Char) : Option (List Char) :=
  let pre := cs.take n
  if pre.length = n ∧ pre.all Char.isDigit then some pre else none

/-- A date separator, the regex separator class (dash or slash). -/
def isSep (c : Char) : Bool :=
  decide (c = '-') || decide (c = '/')

/-- Alternative 1, four digits, separator, two digits, separator, two digits, anchored at the head. -/
def matchDashedDate (cs : List Char) : Option (List Char) :=
  match takeDigitsExact 4 cs with
  | none => none
  | some d4 =>
    match cs.drop 4 with
    | [] => none
    | s1 :: rest1 =>
      if isSep s1 then
        match takeDigitsExact 2 rest1 with
        | none => none
        | some m2 =>
          match rest1.drop 2 with
          | [] => none
          | s2 :: rest2 =>
            if isSep s2 then
              match takeDigitsExact 2 rest2 with
              | none => none
              | some d2 => some (d4 ++ s1 :: m2 ++ s2 :: d2)
            else none
      else none

/-- The whole alternation, anchored at the head: alternatives are tried
in the regex's written order. -/
def matchDateAlt (cs : List Char) : Option (List Char) :=
  match matchDashedDate cs with
  | some v => some v
  | none =>
    match takeDigitsExact 8 cs with
    | some v => some v
    | none => takeDigitsExact 14 cs

/-- `re.search`: the match at the leftmost start position that admits one. -/
def reSearchDate : List Char → Option (List Char)
  | [] => none
  | c :: rest =>
    match matchDateAlt (c :: rest) with
    | some v => some v
    | none => reSearchDate rest

/-- Source `extract_date_from_url`, with `dateparser.parse` as an oracle.
The matched group (`group(1) or group(2) or group(3)` — exactly the text
the winning alternative consumed) is parsed by `strptime` when it has 14
characters and by `dateparser.parse` otherwise; exceptions and parse
failures become `none`. -/
def extract_date_from_url (parse : String → Option DateTime) (url : String) :
    Option DateTime :=
  match reSearchDate url.toList with
  | none => none
  | some val =>
    if val.length = 14 then (strptime14 val).map make_naive
    else (parse (String.mk val)).map make_naive

/-! ## `extract_date_from_text`

`dateparser.search.search_dates(text, languages=['en'],
settings={'PREFER_DATES_FROM': 'past'})` is an oracle returning the list
of (matched phrase, datetime) candidates; Python's `None` result and the
empty list behave identically here, so the oracle returns a plain list. -/

/-- The source's loop body over the candidate list: make each candidate
naive, return the first one with `year >= 2000` and
`date_obj.date() <= now.date()`. -/
def textDateLoop (now : Date) : List (String × DateTime) → Option DateTime
  | [] => none
  | p :: rest =>
    let d := make_naive p.2
    if decide (2000 ≤ d.date.year) && Date.ble d.date now then some d
    else textDateLoop now rest

/-- Source `extract_date_from_text`: empty text short-circuits to `none`
(`if not text`); otherwise scan the search-dates candidates. `now` is the
calendar date of `datetime.now()`. -/
def extract_date_from_text (sd : String → List (String × DateTime)) (now : Date)
    (text : String) : Option DateTime :=
  if text = "" then none else textDateLoop now (sd text)

/-! ## `extract_date_from_meta`

BeautifulSoup is external: an HTML document is modelled by its three tag
lookup maps (`find("meta", attrs={"property": p})`,
`find("meta", attrs={"name": p})`, `find("meta", itemprop=p)`), each
returning an optional tag whose `get("content")` is an optional string.
The `truthy` flag is the Python truthiness of the underlying HTML string
(`if ... html:` in the fetcher). -/

/-- A `<meta>` tag as the source uses it: only its `content` attribute. -/
structure MetaTag where
  content : Option String
deriving DecidableEq, Repr

/-- An HTML document, reduced to what the source queries of it. -/
structure HtmlDoc where
  truthy : Bool
  byProperty : String → Option MetaTag
  byName : String → Option MetaTag
  byItemprop : String → Option MetaTag

/-- The source's tag lookup for one property name:
`soup.find(..., property=p) or soup.find(..., name=p) or soup.find(..., itemprop=p)`
(a found tag is always truthy in Python). -/
def lookupTag (doc : HtmlDoc) (prop : String) : Option MetaTag :=
  match doc.byProperty prop with
  | some t => some t
  | none =>
    match doc.byName prop with
    | some t => some t
    | none => doc.byItemprop prop

/-- The source's `meta_props` list, duplicate "date" entry included. -/
def meta_props : List String :=
  ["article:published_time", "og:published_time", "datePublished",
   "publish_date", "pubdate", "publishdate", "date", "article:published",
   "parsely-pub-date", "dc.date", "dc.date.issued", "date"]

/-- The source's loop over `meta_props`: for each property, if a tag is
found and its `content` is truthy (present and non-empty) and
`dateparser.parse` succeeds on it, return the result made naive;
otherwise continue with the next property. -/
def metaLoop (parse : String → Option DateTime) (doc : HtmlDoc) :
    List String → Option DateTime
  | [] => none
  | prop :: rest =>
    match lookupTag doc prop with
    | none => metaLoop parse doc rest
    | some tag =>
      match tag.content with
      | none => metaLoop parse doc rest
      | some c =>
        if c = "" then metaLoop parse doc rest
        else
          match parse c with
          | some d => some (make_naive d)
          | none => metaLoop parse doc rest

/-- Source `extract_date_from_meta`, with `dateparser.parse` as oracle. -/
def extract_date_from_meta (parse : String → Option DateTime) (doc : HtmlDoc) :
    Option DateTime :=
  metaLoop parse doc meta_props

/-- The first truthy (present, non-empty) metadata value in `meta_props`
order — the value the spec says gets parsed. -/
def first_meta_value (doc : HtmlDoc) : List String → Option String
  | [] => none
  | prop :: rest =>
    match lookupTag doc prop with
    | none => first_meta_value doc rest
    | some tag =>
      match tag.content with
      | none => first_meta_value doc rest
      | some c => if c = "" then first_meta_value doc rest else some c

/-! ## `fetch_full_text_and_summary`

The two acquisition paths are external: the primary `newspaper.Article`
path either raises (modelled `none`) or yields stripped text, summary,
html and an optional library-detected publish date; the fallback
`requests.get` + paragraph-scrape path either raises / gets a bad status
(modelled `none`) or yields the html and the joined paragraph text. -/

/-- A successful `newspaper.Article` download/parse/nlp. -/
structure PrimaryResult where
  text : String
  summary : String
  html : HtmlDoc
  publish_date : Option DateTime

/-- The network-dependent outcome of the two acquisition attempts for
one URL. -/
structure FetchEnv where
  primary : Option PrimaryResult
  fallback : Option (HtmlDoc × String)

/-- The date-resolution tail of the fetcher (source lines assigning
`pub_date` after acquisition): each `if not pub_date and ...:` guard
re-tests the running value and the Python truthiness of `html` /
`full_text`. -/
def resolveFetchDate (parse : String → Option DateTime)
    (sd : String → List (String × DateTime)) (now : Date) (url : String)
    (pub_date : Option DateTime) (html : Option HtmlDoc)
    (full_text : Option String) : Option DateTime :=
  let pd1 :=
    if pub_date.isNone then
      match html with
      | some doc => if doc.truthy then extract_date_from_meta parse doc else none
      | none => none
    else pub_date
  let pd2 :=
    if pd1.isNone then
      match full_text with
      | some t => if t = "" then none else extract_date_from_text sd now t
      | none => none
    else pd1
  if pd2.isNone then extract_date_from_url parse url else pd2

/-- Source `fetch_full_text_and_summary`: primary path first; on its
failure the fallback path; on total failure `(None, None, None)` with no
date resolution at all.  On either success, chain the date resolvers. -/
def fetch_full_text_and_summary (parse : String → Option DateTime)
    (sd : String → List (String × DateTime)) (now : Date) (env : FetchEnv)
    (url : String) : Option String × Option DateTime × Option String :=
  match env.primary with
  | some pr =>
    (some pr.text,
     resolveFetchDate parse sd now url (pr.publish_date.map make_naive)
       (some pr.html) (some pr.text),
     some pr.summary)
  | none =>
    match env.fallback with
    | some (doc, ptext) =>
      (some ptext, resolveFetchDate parse sd now url none (some doc) (some ptext),
       none)
    | none => (none, none, none)

/-! ## Classifier, entity extractor, event date, keyword matching -/

/-- The source's `CATEGORY_KEYWORDS` table, in declared (insertion)
order — Python dicts preserve it. -/
def CATEGORY_KEYWORDS : List (String × List String) :=
  [("Press Release", ["press release", "announced", "unveiled", "launched"]),
   ("Jury", ["jury", "judge", "jury member", "jury panel", "jury appointment"]),
   ("Interviews", ["interview with", "exclusive interview", "spoke to", "conversation with"]),
   ("Speaking Opportunity", ["keynote", "fireside chat", "panel discussion", "session speaker", "speaker at"]),
   ("Article Commentary", ["quoted", "commented", "shared", "according to", "said", "opinion"]),
   ("Brief Mentions", ["congratulations", "appointed", "wins", "promotion", "award", "linkedin update"])]

/-- The source's nested loops: first category, in declared order, one of
whose trigger phrases occurs in the (already lower-cased) text. -/
def categoryLoop (t : String) : List (String × List String) → String
  | [] => "Brief Mentions"
  | (cat, kws) :: rest =>
    if kws.any (fun k => pyIn k t) then cat else categoryLoop t rest

/-- Source `categorize_article`. -/
def categorize_article (text : String) : String :=
  categoryLoop (lowerStr text) CATEGORY_KEYWORDS

/-- Source `extract_named_entities`, with the spaCy pipeline as an
oracle producing (mention text, label) pairs; keep PERSON / ORG / GPE. -/
def extract_named_entities (ents : String → List (String × String))
    (text : String) : List String :=
  if text = "" then []
  else ((ents text).filter
    (fun e => e.2 == "PERSON" || e.2 == "ORG" || e.2 == "GPE")).map Prod.fst

/-- Source `extract_event_date`: first raw search-dates candidate,
formatted, else the marker.  (This `search_dates` call passes different
settings than the one in `extract_date_from_text`, so it is a separate
oracle.) -/
def extract_event_date (sde : String → List (String × DateTime))
    (text : String) : String :=
  match sde text with
  | [] => "Not Mentioned"
  | p :: _ => fmtDate p.2.date

/-- Source `contains_keywords`: case-insensitive substring match of any
keyword against the text. -/
def contains_keywords (text : String) (keywords : List String) : Bool :=
  keywords.any (fun k => pyIn (lowerStr k) (lowerStr text))

/-! ## `search_urls_bing_news`

One fetched result page is external: `fetchPage p` models the GET of the
page at offset `10 * p` followed by `soup.select("a.title")`; `none`
models any network or parse exception (caught by the source and turned
into `break`), `some items` the parsed result-link elements. -/

/-- One parsed result-link element: its text and optional `href`. -/
structure BingItem where
  title : String
  href : Option String
deriving DecidableEq, Repr

/-- A search hit, `{"title": ..., "url": ...}`. -/
structure SearchHit where
  title : String
  url : String
deriving DecidableEq, Repr

/-- The source's inner loop over one page's items, threading the
`seen_urls` set: keep an item when its `href` is truthy and unseen,
recording the URL as seen.  Returns (new seen set, appended hits). -/
def addItems (seen : List String) : List BingItem → List String × List SearchHit
  | [] => (seen, [])
  | it :: rest =>
    match it.href with
    | none => addItems seen rest
    | some u =>
      if u ≠ "" ∧ u ∉ seen then
        let p := addItems (u :: seen) rest
        (p.1, ⟨it.title, u⟩ :: p.2)
      else addItems seen rest

/-- The source's `while page < max_pages` loop, with the remaining page
budget as fuel: an exception (`none`) or an empty item list stops and
returns what was accumulated. -/
def searchPages (fp : Nat → Option (List BingItem)) :
    Nat → Nat → List String → List SearchHit
  | 0, _, _ => []
  | Nat.succ n, page, seen =>
    match fp page with
    | none => []
    | some items =>
      if items.isEmpty then []
      else
        let p := addItems seen items
        p.2 ++ searchPages fp n (page + 1) p.1

/-- Source `search_urls_bing_news` (the call sites use the default
`max_pages = 5`). -/
def search_urls_bing_news (fp : Nat → Option (List BingItem))
    (max_pages : Nat) : List SearchHit :=
  searchPages fp max_pages 0 []

/-- Spec-side description of the de-duplication: walk the flattened item
stream once, keeping only the first occurrence of each truthy URL. -/
def firstOccurrences (seen : List String) : List BingItem → List SearchHit
  | [] => []
  | it :: rest =>
    match it.href with
    | none => firstOccurrences seen rest
    | some u =>
      if u ≠ "" ∧ u ∉ seen then ⟨it.title, u⟩ :: firstOccurrences (u :: seen) rest
      else firstOccurrences seen rest

/-- The items of the pages pagination actually consumes: stop on fuel
exhaustion, on an exception, or on an empty page. -/
def itemStream (fp : Nat → Option (List BingItem)) :
    Nat → Nat → List BingItem
  | 0, _ => []
  | Nat.succ n, page =>
    match fp page with
    | none => []
    | some items =>
      if items.isEmpty then [] else items ++ itemStream fp n (page + 1)

/-- The concatenated items of `k` consecutive pages starting at `page`,
as described by a page-contents function. -/
def pageConcat (items : Nat → List BingItem) : Nat → Nat → List BingItem
  | 0, _ => []
  | Nat.succ k, page => items page ++ pageConcat items k (page + 1)

/-! ## The tracker

`run_tracker` composes everything.  A `World` packages all the external
oracles one run consults. -/

/-- A matched record (one row of `final_data`). -/
structure TrackedArticle where
  title : String
  url : String
  publishedDate : String
  eventDate : String
  leaderMentioned : String
  category : String
  namedEntities : String
  summary : String
deriving DecidableEq, Repr

/-- A failed/inaccessible record (one row of `failed_articles`). -/
structure FailedArticle where
  title : String
  url : String
  publishedDate : String
deriving DecidableEq, Repr

/-- One output row of the tracker. -/
def TrackRow := TrackedArticle ⊕ FailedArticle

/-- The external world of one tracker run: the Bing result pages per
query, the per-URL fetch outcomes, `dateparser.parse`, the two
`search_dates` call sites, the spaCy entity pipeline, and today's date. -/
structure World where
  pages : String → Nat → Option (List BingItem)
  fetchEnv : String → FetchEnv
  parse : String → Option DateTime
  sdText : String → List (String × DateTime)
  sdEvent : String → List (String × DateTime)
  ents : String → List (String × String)
  now : Date

/-- A present date whose calendar day falls outside `[s, e]` — the
source's `pub_date... and not (start_date <= ....date() <= end_date)`. -/
def dateOutOfRange (s e : Date) : Option DateTime → Bool
  | none => false
  | some d => !(Date.ble s d.date && Date.ble d.date e)

/-- Python truthiness of an optional string. -/
def pyTruthy : Option String → Bool
  | none => false
  | some s => s != ""

/-- Python `a or b` for an optional string against a string default. -/
def pyOrElse (a : Option String) (b : String) : String :=
  match a with
  | none => b
  | some s => if s = "" then b else s

/-- `d.strftime('%Y-%m-%d') if d else "Unknown"`. -/
def fmtOptDate : Option DateTime → String
  | some d => fmtDate d.date
  | none => "Unknown"

/-- Python `a or b` on optional datetimes (a datetime is always truthy). -/
def orOpt (a b : Option DateTime) : Option DateTime :=
  match a with
  | some d => some d
  | none => b

/-- The matched-row dictionary literal of the tracker's loop body
(`final_data.append({...})`), given the hit, the truthy full text, and
the fetch results. -/
def mkTrackedRow (w : World) (leaders : List String) (hit : SearchHit)
    (full_text : Option String) (pub_date : Option DateTime)
    (summary : Option String) : TrackedArticle :=
  let ft := full_text.getD ""
  { title := hit.title
    url := hit.url
    publishedDate := fmtOptDate pub_date
    eventDate := extract_event_date w.sdEvent ft
    leaderMentioned :=
      let j := String.intercalate ", "
        (leaders.filter (fun l => pyIn (lowerStr l) (lowerStr ft)))
      if j = "" then "Not Mentioned" else j
    category := categorize_article ft
    namedEntities := String.intercalate ", " (extract_named_entities w.ents ft)
    summary :=
      if pyTruthy full_text then pyOrElse summary (ft.take 500 ++ "...")
      else "No summary available." }

/-- The body of the tracker's inner loop for one search hit: `none` means
the hit was skipped by the date-range filter (`continue`); otherwise
exactly one row is produced.  Field computations follow the source's
dictionary literals. -/
def processHit (w : World) (all_keywords leaders : List String) (s e : Date)
    (hit : SearchHit) : Option TrackRow :=
  let pdu := extract_date_from_url w.parse hit.url
  let r := fetch_full_text_and_summary w.parse w.sdText w.now
    (w.fetchEnv hit.url) hit.url
  let full_text := r.1
  let pub_date := r.2.1
  let summary := r.2.2
  if dateOutOfRange s e pdu then none
  else if dateOutOfRange s e pub_date then none
  else if pyTruthy full_text && contains_keywords (full_text.getD "") all_keywords then
    some (Sum.inl (mkTrackedRow w leaders hit full_text pub_date summary))
  else
    some (Sum.inr
      { title := hit.title
        url := hit.url
        publishedDate := fmtOptDate (orOpt pub_date pdu) })

/-- Project the matched rows. -/
def rowTracked : TrackRow → Option TrackedArticle
  | Sum.inl t => some t
  | Sum.inr _ => none

/-- Project the failed rows. -/
def rowFailed : TrackRow → Option FailedArticle
  | Sum.inl _ => none
  | Sum.inr f => some f

/-- Source `run_tracker`: `all_keywords = list(set(keywords + leaders))`
(only membership is consulted, so first-occurrence de-duplication is a
faithful rendering of the set), then for each keyword in order, for each
of its search hits in order, run the loop body; the two accumulator lists
collect the matched and failed rows in encounter order. -/
def run_tracker (w : World) (keywords leaders : List String) (s e : Date) :
    List TrackedArticle × List FailedArticle :=
  let all_keywords := (keywords ++ leaders).eraseDups
  let rows := (keywords.map
      (fun k => search_urls_bing_news (w.pages k) 5)).flatten.filterMap
    (processHit w all_keywords leaders s e)
  (rows.filterMap rowTracked, rows.filterMap rowFailed)

/-! ## Helper lemmas -/

/-- `make_naive` always yields a naive datetime. -/
lemma make_naive_tz (d : DateTime) : (make_naive d).tz = none := by
  cases h : d.tz with
  | none => simp [make_naive, h]
  | some t => simp [make_naive, h]

/-- The category loop returns the default or one of the listed names. -/
lemma categoryLoop_mem (t : String) :
    ∀ l : List (String × List String),
      categoryLoop t l = "Brief Mentions" ∨ categoryLoop t l ∈ l.map Prod.fst := by
  intro l
  induction l with
  | nil => exact Or.inl rfl
  | cons p rest ih =>
    by_cases h : p.2.any (fun k => pyIn k t) = true
    · right
      simp [categoryLoop, h]
    · have h' : categoryLoop t (p :: rest) = categoryLoop t rest := by
        simp only [categoryLoop]
        rw [if_neg h]
      rw [h']
      rcases ih with h1 | h2
      · exact Or.inl h1
      · exact Or.inr (by simp [h2])

/-- The category loop is find-first over the table. -/
lemma categoryLoop_eq_find (t : String) :
    ∀ l : List (String × List String),
      categoryLoop t l
        = ((l.find? (fun p => p.2.any (fun k => pyIn k t))).map Prod.fst).getD
            "Brief Mentions" := by
  intro l
  induction l with
  | nil => rfl
  | cons p rest ih =>
    cases h : p.2.any (fun k => pyIn k t) with
    | true => simp [categoryLoop, List.find?_cons, h]
    | false => simp [categoryLoop, List.find?_cons, h, ih]

/-- The text-date loop is find-first over the naive-ed candidates. -/
lemma textDateLoop_eq_find (now : Date) :
    ∀ l : List (String × DateTime),
      textDateLoop now l
        = (l.map (fun p => make_naive p.2)).find?
            (fun d => decide (2000 ≤ d.date.year) && Date.ble d.date now) := by
  intro l
  induction l with
  | nil => rfl
  | cons p rest ih =>
    cases h :
        (decide (2000 ≤ (make_naive p.2).date.year)
          && Date.ble (make_naive p.2).date now) with
    | true => simp [textDateLoop, List.map_cons, List.find?_cons, h]
    | false => simp [textDateLoop, List.map_cons, List.find?_cons, h, ih]

/-! ## Claim theorems -/

/-- C4.  The claim says URL-date extraction recognizes the three numeric
patterns and that a 14-digit run such as `20231105143000` yields the full
timestamp 2023-11-05 14:30:00.  The code cannot do that: Python regex
alternation tries `\d{8}` before `\d{14}` at each start position, so any
14-digit run is matched through its first 8 digits and handed to
`dateparser.parse`; the `len(val) == 14` / `strptime` branch the source
carries for exactly this case is unreachable.  At the spec's own example
URL the result is the 8-digit parse (2023-11-05 00:00:00, under the
dateparser model), not 2023-11-05 14:30:00. -/
theorem extract_date_from_url_14digit_bug :
    (∀ parse : String → Option DateTime,
      extract_date_from_url parse "https://site.example/news/20231105143000/story"
        = (parse "20231105").map make_naive) ∧
    extract_date_from_url dateparser_parse_model
        "https://site.example/news/20231105143000/story"
      = some ⟨⟨2023, 11, 5⟩, 0, 0, 0, none⟩ ∧
    decide (extract_date_from_url dateparser_parse_model
        "https://site.example/news/20231105143000/story"
      = some ⟨⟨2023, 11, 5⟩, 14, 30, 0, none⟩) = false := by
  refine ⟨fun parse => rfl, by decide, by decide⟩

/-- C7.  Classification is total over the fixed table: it returns the
first category in declared order with a trigger phrase occurring in the
lower-cased text, the result is always a member of the declared table
(the catch-all "Brief Mentions" being its last entry), and a text with no
trigger, such as "hello world", gets the catch-all. -/
theorem categorize_article_spec :
    (∀ text, categorize_article text ∈ CATEGORY_KEYWORDS.map Prod.fst) ∧
    (∀ text, categorize_article text
      = ((CATEGORY_KEYWORDS.find?
            (fun p => p.2.any (fun k => pyIn k (lowerStr text)))).map Prod.fst).getD
          "Brief Mentions") ∧
    categorize_article "hello world" = "Brief Mentions" := by
  refine ⟨fun text => ?_, fun text => categoryLoop_eq_find _ _, by decide⟩
  rcases categoryLoop_mem (lowerStr text) CATEGORY_KEYWORDS with h | h
  · show categoryLoop (lowerStr text) CATEGORY_KEYWORDS ∈ _
    rw [h]
    decide
  · exact h

/-- C5.  Free-text date extraction returns exactly the first
past-preferring search candidate that, made naive, has year at least 2000
and calendar date not after today; and any returned value satisfies both
bounds, so pre-2000 and future candidates are never returned.  Empty text
short-circuits to no result. -/
theorem extract_date_from_text_spec :
    ∀ (sd : String → List (String × DateTime)) (now : Date) (text : String),
      (extract_date_from_text sd now text
        = if text = "" then none
          else ((sd text).map (fun p => make_naive p.2)).find?
            (fun d => decide (2000 ≤ d.date.year) && Date.ble d.date now)) ∧
      (extract_date_from_text sd now text).all
        (fun d => decide (2000 ≤ d.date.year) && Date.ble d.date now) = true := by
  intro sd now text
  constructor
  · by_cases h : text = ""
    · simp [extract_date_from_text, h]
    · simp only [extract_date_from_text]
      rw [if_neg h, if_neg h]
      exact textDateLoop_eq_find now (sd text)
  · by_cases h : text = ""
    · simp [extract_date_from_text, h]
    · have heq : extract_date_from_text sd now text
        = ((sd text).map (fun p => make_naive p.2)).find?
            (fun d => decide (2000 ≤ d.date.year) && Date.ble d.date now) := by
        simp only [extract_date_from_text]
        rw [if_neg h]
        exact textDateLoop_eq_find now (sd text)
      rw [heq]
      cases hf : ((sd text).map (fun p => make_naive p.2)).find?
          (fun d => decide (2000 ≤ d.date.year) && Date.ble d.date now) with
      | none => rfl
      | some d =>
        have := List.find?_some hf
        simpa [Option.all] using this

/-- The meta-property loop against the first truthy content value. -/
lemma metaLoop_spec (parse : String → Option DateTime) (doc : HtmlDoc) :
    ∀ l : List String,
      (∀ v, first_meta_value doc l = some v →
        ∀ d, parse v = some d → metaLoop parse doc l = some (make_naive d)) ∧
      (first_meta_value doc l = none → metaLoop parse doc l = none) ∧
      (metaLoop parse doc l).all (fun d => d.tz.isNone) = true := by
  intro l
  induction l with
  | nil =>
    refine ⟨fun v hv => ?_, fun _ => rfl, rfl⟩
    cases hv
  | cons prop rest ih =>
    cases hT : lookupTag doc prop with
    | none =>
      refine ⟨fun v hv d hd => ?_, fun h0 => ?_, ?_⟩ <;>
        simp only [metaLoop, first_meta_value, hT] at *
      · exact ih.1 v hv d hd
      · exact ih.2.1 h0
      · exact ih.2.2
    | some tag =>
      cases hC : tag.content with
      | none =>
        refine ⟨fun v hv d hd => ?_, fun h0 => ?_, ?_⟩ <;>
          simp only [metaLoop, first_meta_value, hT, hC] at *
        · exact ih.1 v hv d hd
        · exact ih.2.1 h0
        · exact ih.2.2
      | some c =>
        by_cases hce : c = ""
        · refine ⟨fun v hv d hd => ?_, fun h0 => ?_, ?_⟩ <;>
            simp only [metaLoop, first_meta_value, hT, hC, if_pos hce] at *
          · exact ih.1 v hv d hd
          · exact ih.2.1 h0
          · exact ih.2.2
        · refine ⟨fun v hv d hd => ?_, fun h0 => ?_, ?_⟩
          · simp only [first_meta_value, hT, hC, if_neg hce] at hv
            cases hv
            simp only [metaLoop, hT, hC, if_neg hce, hd]
          · simp [first_meta_value, hT, hC, hce] at h0
          · simp only [metaLoop, hT, hC, if_neg hce]
            cases hp : parse c with
            | some d => simp [make_naive_tz]
            | none => exact ih.2.2

/-- C6.  Metadata date extraction scans `meta_props` in order; if the
first truthy (present and non-empty) metadata value parses to `d`, the
result is `make_naive d`; if no truthy value exists at all, the result is
absent; every returned value is timezone-naive; and `make_naive` keeps
the wall-clock fields while dropping the offset. -/
theorem extract_date_from_meta_spec (parse : String → Option DateTime)
    (doc : HtmlDoc) :
    (∀ v, first_meta_value doc meta_props = some v →
      ∀ d, parse v = some d →
        extract_date_from_meta parse doc = some (make_naive d)) ∧
    (first_meta_value doc meta_props = none →
      extract_date_from_meta parse doc = none) ∧
    (extract_date_from_meta parse doc).all (fun d => d.tz.isNone) = true ∧
    (∀ d : DateTime, (make_naive d).date = d.date ∧ (make_naive d).hour = d.hour ∧
      (make_naive d).minute = d.minute ∧ (make_naive d).second = d.second ∧
      (make_naive d).tz = none) := by
  refine ⟨(metaLoop_spec parse doc meta_props).1,
    (metaLoop_spec parse doc meta_props).2.1,
    (metaLoop_spec parse doc meta_props).2.2, fun d => ?_⟩
  cases h : d.tz with
  | none => simp [make_naive, h]
  | some t => simp [make_naive, h]

/-- Instantiation of the C6 theorem: a document whose only metadata date
is carried by `og:published_time` with an explicit +05:30 offset resolves
to the same wall-clock instant with the offset dropped. -/
theorem extract_date_from_meta_spec_witness :
    extract_date_from_meta
      (fun s => if s = "2023-01-02T03:04:05+05:30"
        then some ⟨⟨2023, 1, 2⟩, 3, 4, 5, some 330⟩ else none)
      ⟨true,
       fun p => if p = "og:published_time"
         then some ⟨some "2023-01-02T03:04:05+05:30"⟩ else none,
       fun _ => none, fun _ => none⟩
    = some ⟨⟨2023, 1, 2⟩, 3, 4, 5, none⟩ := by
  exact (extract_date_from_meta_spec
    (fun s => if s = "2023-01-02T03:04:05+05:30"
      then some ⟨⟨2023, 1, 2⟩, 3, 4, 5, some 330⟩ else none)
    ⟨true,
     fun p => if p = "og:published_time"
       then some ⟨some "2023-01-02T03:04:05+05:30"⟩ else none,
     fun _ => none, fun _ => none⟩).1
    "2023-01-02T03:04:05+05:30" (by decide) ⟨⟨2023, 1, 2⟩, 3, 4, 5, some 330⟩
    (by decide)

/-- C3.  The fetcher's publish date is the first present value of the
priority chain: the primary library's date (made naive), then metadata
extraction on the retrieved HTML, then free-text extraction on the body
text, then URL-pattern extraction — stated for a primary-path success
with truthy html and body text, for a primary date that is simply
present (it always wins), and for a fallback-path success (where the
library reports no date). -/
theorem fetch_date_priority (parse : String → Option DateTime)
    (sd : String → List (String × DateTime)) (now : Date) (env : FetchEnv)
    (url : String) :
    (∀ pr, env.primary = some pr → pr.html.truthy = true → pr.text ≠ "" →
      (fetch_full_text_and_summary parse sd now env url).2.1
        = orOpt (pr.publish_date.map make_naive)
            (orOpt (extract_date_from_meta parse pr.html)
              (orOpt (extract_date_from_text sd now pr.text)
                (extract_date_from_url parse url)))) ∧
    (∀ pr d, env.primary = some pr → pr.publish_date = some d →
      (fetch_full_text_and_summary parse sd now env url).2.1
        = some (make_naive d)) ∧
    (∀ doc ptext, env.primary = none → env.fallback = some (doc, ptext) →
      doc.truthy = true → ptext ≠ "" →
      (fetch_full_text_and_summary parse sd now env url).2.1
        = orOpt (extract_date_from_meta parse doc)
            (orOpt (extract_date_from_text sd now ptext)
              (extract_date_from_url parse url))) := by
  refine ⟨fun pr h hh ht => ?_, fun pr d h hpd => ?_, fun doc ptext h hf hh ht => ?_⟩
  · simp only [fetch_full_text_and_summary, h, resolveFetchDate]
    cases hpd : pr.publish_date with
    | some d => simp [orOpt]
    | none =>
      simp only [Option.map_none', Option.isNone_none, if_pos trivial, hh,
        if_true, if_neg ht]
      cases hm : extract_date_from_meta parse pr.html with
      | some d => simp [orOpt]
      | none =>
        cases htx : extract_date_from_text sd now pr.text with
        | some d => simp [orOpt]
        | none => simp [orOpt]
  · simp only [fetch_full_text_and_summary, h, resolveFetchDate, hpd]
    simp [orOpt]
  · simp only [fetch_full_text_and_summary, h, hf, resolveFetchDate]
    simp only [Option.isNone_none, if_true, hh, if_neg ht]
    cases hm : extract_date_from_meta parse doc with
    | some d => simp [orOpt]
    | none =>
      cases htx : extract_date_from_text sd now ptext with
      | some d => simp [orOpt]
      | none => simp [orOpt]

/-- Instantiation of the C3 theorem: no library date, no metadata, no
in-text date — the URL pattern (the last chain link) supplies the date. -/
theorem fetch_date_priority_witness :
    (fetch_full_text_and_summary dateparser_parse_model (fun _ => [])
      ⟨2025, 6, 1⟩
      ⟨some ⟨"body text", "sum", ⟨true, fun _ => none, fun _ => none,
        fun _ => none⟩, none⟩, none⟩
      "https://site.example/news/2024-03-01/story").2.1
    = some ⟨⟨2024, 3, 1⟩, 0, 0, 0, none⟩ := by
  have h := (fetch_date_priority dateparser_parse_model (fun _ => [])
    ⟨2025, 6, 1⟩
    ⟨some ⟨"body text", "sum", ⟨true, fun _ => none, fun _ => none,
      fun _ => none⟩, none⟩, none⟩
    "https://site.example/news/2024-03-01/story").1
    ⟨"body text", "sum", ⟨true, fun _ => none, fun _ => none, fun _ => none⟩,
      none⟩ rfl rfl (by decide)
  rw [h]
  decide

/-- C1.  A search hit is skipped by the tracker (producing no row at
all, so it is recorded in neither output) exactly when the URL-derived
date or the fetch-derived date is present with its calendar day outside
the inclusive `[s, e]` range; when both dates are absent the hit is never
rejected by this filter. -/
theorem processHit_skip_iff (w : World) (ak ldrs : List String) (s e : Date)
    (hit : SearchHit) :
    ((processHit w ak ldrs s e hit).isNone
      = (dateOutOfRange s e (extract_date_from_url w.parse hit.url)
         || dateOutOfRange s e
              (fetch_full_text_and_summary w.parse w.sdText w.now
                (w.fetchEnv hit.url) hit.url).2.1)) ∧
    (extract_date_from_url w.parse hit.url = none →
      (fetch_full_text_and_summary w.parse w.sdText w.now
        (w.fetchEnv hit.url) hit.url).2.1 = none →
      (processHit w ak ldrs s e hit).isSome = true) := by
  constructor
  · cases h1 : dateOutOfRange s e (extract_date_from_url w.parse hit.url) with
    | true => simp [processHit, h1]
    | false =>
      cases h2 : dateOutOfRange s e
          (fetch_full_text_and_summary w.parse w.sdText w.now
            (w.fetchEnv hit.url) hit.url).2.1 with
      | true => simp [processHit, h1, h2]
      | false =>
        simp only [processHit, h1, h2, Bool.false_eq_true, if_false,
          Bool.or_self]
        split <;> rfl
  · intro hu hf
    simp only [processHit, hu, hf, dateOutOfRange, Bool.false_eq_true,
      if_false]
    split <;> rfl

/-- Instantiation of the C1 theorem at a hit with no URL date and a
total fetch failure: both resolved dates absent, and the hit is still
recorded (as a failed row), not rejected. -/
theorem processHit_skip_iff_witness :
    (processHit
      ⟨fun _ _ => none, fun _ => ⟨none, none⟩, fun _ => none, fun _ => [],
        fun _ => [], fun _ => [], ⟨2025, 6, 1⟩⟩
      ["acme"] [] ⟨2024, 1, 1⟩ ⟨2024, 12, 31⟩
      ⟨"A title", "https://ex.example/story"⟩).isSome = true := by
  exact (processHit_skip_iff
    ⟨fun _ _ => none, fun _ => ⟨none, none⟩, fun _ => none, fun _ => [],
      fun _ => [], fun _ => [], ⟨2025, 6, 1⟩⟩
    ["acme"] [] ⟨2024, 1, 1⟩ ⟨2024, 12, 31⟩
    ⟨"A title", "https://ex.example/story"⟩).2 (by decide) (by decide)

/-- C2.  For a hit that passes the date filter: when the fetched full
text is truthy and contains (case-insensitively) one of the keywords or
leader names, the hit becomes a matched `TrackedArticle` row; otherwise
— fetch failure included — it becomes a `FailedArticle` row whose
published date is the fetch-derived date when present, else the
URL-derived date, else the marker "Unknown". -/
theorem processHit_routing (w : World) (ak ldrs : List String) (s e : Date)
    (hit : SearchHit)
    (h1 : dateOutOfRange s e (extract_date_from_url w.parse hit.url) = false)
    (h2 : dateOutOfRange s e
      (fetch_full_text_and_summary w.parse w.sdText w.now
        (w.fetchEnv hit.url) hit.url).2.1 = false) :
    ((pyTruthy (fetch_full_text_and_summary w.parse w.sdText w.now
        (w.fetchEnv hit.url) hit.url).1
      && contains_keywords
          ((fetch_full_text_and_summary w.parse w.sdText w.now
            (w.fetchEnv hit.url) hit.url).1.getD "") ak) = true →
      ∃ t, processHit w ak ldrs s e hit = some (Sum.inl t)) ∧
    ((pyTruthy (fetch_full_text_and_summary w.parse w.sdText w.now
        (w.fetchEnv hit.url) hit.url).1
      && contains_keywords
          ((fetch_full_text_and_summary w.parse w.sdText w.now
            (w.fetchEnv hit.url) hit.url).1.getD "") ak) = false →
      processHit w ak ldrs s e hit = some (Sum.inr
        ⟨hit.title, hit.url,
         fmtOptDate (orOpt
           (fetch_full_text_and_summary w.parse w.sdText w.now
             (w.fetchEnv hit.url) hit.url).2.1
           (extract_date_from_url w.parse hit.url))⟩)) := by
  constructor
  · intro hc
    refine ⟨mkTrackedRow w ldrs hit
      (fetch_full_text_and_summary w.parse w.sdText w.now
        (w.fetchEnv hit.url) hit.url).1
      (fetch_full_text_and_summary w.parse w.sdText w.now
        (w.fetchEnv hit.url) hit.url).2.1
      (fetch_full_text_and_summary w.parse w.sdText w.now
        (w.fetchEnv hit.url) hit.url).2.2, ?_⟩
    simp only [processHit, h1, h2, hc, Bool.false_eq_true, if_false, if_true]
  · intro hc
    simp only [processHit, h1, h2, hc, Bool.false_eq_true, if_false]

/-- Instantiation of the C2 theorem: a successfully fetched article whose
body contains the keyword is routed to the matched set. -/
theorem processHit_routing_witness :
    ∃ t, processHit
      ⟨fun _ _ => none,
       fun _ => ⟨some ⟨"Acme was quoted today", "a summary",
         ⟨false, fun _ => none, fun _ => none, fun _ => none⟩, none⟩, none⟩,
       fun _ => none, fun _ => [], fun _ => [], fun _ => [], ⟨2025, 6, 1⟩⟩
      ["acme"] [] ⟨2024, 1, 1⟩ ⟨2024, 12, 31⟩
      ⟨"A title", "https://ex.example/story"⟩ = some (Sum.inl t) := by
  exact (processHit_routing
    ⟨fun _ _ => none,
     fun _ => ⟨some ⟨"Acme was quoted today", "a summary",
       ⟨false, fun _ => none, fun _ => none, fun _ => none⟩, none⟩, none⟩,
     fun _ => none, fun _ => [], fun _ => [], fun _ => [], ⟨2025, 6, 1⟩⟩
    ["acme"] [] ⟨2024, 1, 1⟩ ⟨2024, 12, 31⟩
    ⟨"A title", "https://ex.example/story"⟩ (by decide) (by decide)).1
    (by decide)

/-- Splitting the rows loses nothing: each row is matched or failed. -/
lemma rowSplit_length :
    ∀ rows : List TrackRow,
      (rows.filterMap rowTracked).length + (rows.filterMap rowFailed).length
        = rows.length := by
  intro rows
  induction rows with
  | nil => rfl
  | cons r rest ih =>
    cases r with
    | inl t =>
      simp only [List.filterMap_cons, rowTracked, rowFailed, List.length_cons]
      omega
    | inr f =>
      simp only [List.filterMap_cons, rowTracked, rowFailed, List.length_cons]
      omega

/-- filterMap length counts the inputs the function keeps. -/
lemma length_filterMap_eq_countP {α β : Type} (f : α → Option β) :
    ∀ l : List α, (l.filterMap f).length = l.countP (fun a => (f a).isSome) := by
  intro l
  induction l with
  | nil => rfl
  | cons a rest ih =>
    cases h : f a with
    | none => simp [List.filterMap_cons, List.countP_cons, h, ih]
    | some b => simp [List.filterMap_cons, List.countP_cons, h, ih]

/-- C10.  Every hit that is not skipped by the date filter contributes
exactly one row, so the matched and failed tables together have exactly
as many rows as there are unskipped hits, and never more rows than hits
processed. -/
theorem run_tracker_row_count (w : World) (kws ldrs : List String)
    (s e : Date) :
    ((run_tracker w kws ldrs s e).1.length
       + (run_tracker w kws ldrs s e).2.length
      = ((kws.map (fun k => search_urls_bing_news (w.pages k) 5)).flatten.countP
          (fun h => (processHit w ((kws ++ ldrs).eraseDups) ldrs s e h).isSome))) ∧
    ((run_tracker w kws ldrs s e).1.length
       + (run_tracker w kws ldrs s e).2.length
      ≤ ((kws.map (fun k => search_urls_bing_news (w.pages k) 5)).flatten).length) := by
  have hsplit := rowSplit_length
    (((kws.map (fun k => search_urls_bing_news (w.pages k) 5)).flatten).filterMap
      (processHit w ((kws ++ ldrs).eraseDups) ldrs s e))
  have hcount := length_filterMap_eq_countP
    (processHit w ((kws ++ ldrs).eraseDups) ldrs s e)
    ((kws.map (fun k => search_urls_bing_news (w.pages k) 5)).flatten)
  constructor
  · show ((((kws.map (fun k => search_urls_bing_news (w.pages k) 5)).flatten).filterMap
        (processHit w ((kws ++ ldrs).eraseDups) ldrs s e)).filterMap
          rowTracked).length
      + ((((kws.map (fun k => search_urls_bing_news (w.pages k) 5)).flatten).filterMap
        (processHit w ((kws ++ ldrs).eraseDups) ldrs s e)).filterMap
          rowFailed).length = _
    rw [hsplit, hcount]
  · show ((((kws.map (fun k => search_urls_bing_news (w.pages k) 5)).flatten).filterMap
        (processHit w ((kws ++ ldrs).eraseDups) ldrs s e)).filterMap
          rowTracked).length
      + ((((kws.map (fun k => search_urls_bing_news (w.pages k) 5)).flatten).filterMap
        (processHit w ((kws ++ ldrs).eraseDups) ldrs s e)).filterMap
          rowFailed).length ≤ _
    rw [hsplit, hcount]
    exact List.countP_le_length _

/-- The per-page loop's hit output is the first-occurrence filter. -/
lemma addItems_snd :
    ∀ (l : List BingItem) (seen : List String),
      (addItems seen l).2 = firstOccurrences seen l := by
  intro l
  induction l with
  | nil => intro seen; rfl
  | cons it rest ih =>
    intro seen
    cases hh : it.href with
    | none => simp [addItems, firstOccurrences, hh, ih]
    | some u =>
      by_cases hc : u ≠ "" ∧ u ∉ seen
      · simp [addItems, firstOccurrences, hh, hc, ih]
      · simp [addItems, firstOccurrences, hh, hc, ih]

/-- The seen-set after a concatenation is the seen-set of the second part
started from the seen-set after the first. -/
lemma addItems_fst_append :
    ∀ (l₁ l₂ : List BingItem) (seen : List String),
      (addItems seen (l₁ ++ l₂)).1 = (addItems (addItems seen l₁).1 l₂).1 := by
  intro l₁
  induction l₁ with
  | nil => intro l₂ seen; rfl
  | cons it rest ih =>
    intro l₂ seen
    cases hh : it.href with
    | none => simp [addItems, hh, ih]
    | some u =>
      by_cases hc : u ≠ "" ∧ u ∉ seen
      · simp [addItems, hh, hc, ih]
      · simp [addItems, hh, hc, ih]

/-- First-occurrence filtering distributes over concatenation, threading
the seen-set. -/
lemma firstOccurrences_append :
    ∀ (l₁ l₂ : List BingItem) (seen : List String),
      firstOccurrences seen (l₁ ++ l₂)
        = firstOccurrences seen l₁
          ++ firstOccurrences (addItems seen l₁).1 l₂ := by
  intro l₁
  induction l₁ with
  | nil => intro l₂ seen; rfl
  | cons it rest ih =>
    intro l₂ seen
    cases hh : it.href with
    | none => simp [addItems, firstOccurrences, hh, ih]
    | some u =>
      by_cases hc : u ≠ "" ∧ u ∉ seen
      · simp [addItems, firstOccurrences, hh, hc, ih]
      · simp [addItems, firstOccurrences, hh, hc, ih]

/-- Pagination equals first-occurrence filtering of the consumed item
stream. -/
lemma searchPages_eq (fp : Nat → Option (List BingItem)) :
    ∀ (n page : Nat) (seen : List String),
      searchPages fp n page seen = firstOccurrences seen (itemStream fp n page) := by
  intro n
  induction n with
  | zero => intro page seen; rfl
  | succ n ih =>
    intro page seen
    cases hp : fp page with
    | none => simp [searchPages, itemStream, hp, firstOccurrences]
    | some items =>
      cases hi : items.isEmpty with
      | true => simp [searchPages, itemStream, hp, hi, firstOccurrences]
      | false =>
        simp only [searchPages, itemStream, hp, hi, if_false,
          Bool.false_eq_true]
        rw [firstOccurrences_append, ih, addItems_snd]

/-- First-occurrence filtering yields pairwise-distinct URLs, none of
which was already seen. -/
lemma firstOccurrences_nodup :
    ∀ (l : List BingItem) (seen : List String),
      (((firstOccurrences seen l).map SearchHit.url).Nodup) ∧
      (∀ u, u ∈ (firstOccurrences seen l).map SearchHit.url → u ∉ seen) := by
  intro l
  induction l with
  | nil =>
    intro seen
    exact ⟨List.nodup_nil, fun u h => absurd h (List.not_mem_nil u)⟩
  | cons it rest ih =>
    intro seen
    cases hh : it.href with
    | none => simpa [firstOccurrences, hh] using ih seen
    | some u =>
      by_cases hc : u ≠ "" ∧ u ∉ seen
      · have hred : firstOccurrences seen (it :: rest)
            = ⟨it.title, u⟩ :: firstOccurrences (u :: seen) rest := by
          simp only [firstOccurrences, hh]
          rw [if_pos hc]
        constructor
        · rw [hred]
          simp only [List.map_cons, List.nodup_cons]
          refine ⟨fun hmem => ?_, (ih (u :: seen)).1⟩
          exact absurd (List.mem_cons_self u seen) ((ih (u :: seen)).2 u hmem)
        · intro v hv
          rw [hred] at hv
          simp only [List.map_cons, List.mem_cons] at hv
          rcases hv with hv | hv
          · subst hv; exact hc.2
          · intro hvs
            exact ((ih (u :: seen)).2 v hv) (List.mem_cons_of_mem u hvs)
      · have hred : firstOccurrences seen (it :: rest)
            = firstOccurrences seen rest := by
          simp only [firstOccurrences, hh]
          rw [if_neg hc]
        rw [hred]
        exact ih seen

/-- C8.  One search call returns each URL at most once: the result is
exactly the first-occurrence filter (in page-then-position order, with an
initially empty seen-set) of the item stream pagination consumed, and the
returned URL sequence has no duplicates. -/
theorem search_urls_dedup (fp : Nat → Option (List BingItem)) (max_pages : Nat) :
    search_urls_bing_news fp max_pages
      = firstOccurrences [] (itemStream fp max_pages 0) ∧
    ((search_urls_bing_news fp max_pages).map SearchHit.url).Nodup := by
  constructor
  · exact searchPages_eq fp max_pages 0 []
  · rw [show search_urls_bing_news fp max_pages
        = firstOccurrences [] (itemStream fp max_pages 0)
      from searchPages_eq fp max_pages 0 []]
    exact (firstOccurrences_nodup (itemStream fp max_pages 0) []).1

/-- A page that raises (modelled `none`) or parses to zero items stops
the stream. -/
lemma itemStream_stop (fp : Nat → Option (List BingItem)) (n page : Nat)
    (h : fp page = none ∨ fp page = some []) :
    itemStream fp (n + 1) page = [] := by
  rcases h with h | h <;> simp [itemStream, h]

/-- When the first `k` pages from `page` succeed with nonempty items and
page `page + k` stops (inside the budget), the stream is exactly those
`k` pages' items. -/
lemma itemStream_eq_pageConcat (fp : Nat → Option (List BingItem))
    (items : Nat → List BingItem) :
    ∀ (k page n : Nat),
      (∀ j, j < k → fp (page + j) = some (items (page + j))
        ∧ items (page + j) ≠ []) →
      k < n → (fp (page + k) = none ∨ fp (page + k) = some []) →
      itemStream fp n page = pageConcat items k page := by
  intro k
  induction k with
  | zero =>
    intro page n _ hn hstop
    cases n with
    | zero => exact absurd hn (by omega)
    | succ m =>
      rw [Nat.add_zero] at hstop
      rw [itemStream_stop fp m page hstop]
      rfl
  | succ k ih =>
    intro page n hprev hn hstop
    cases n with
    | zero => exact absurd hn (by omega)
    | succ m =>
      have h0 := hprev 0 (Nat.succ_pos k)
      rw [Nat.add_zero] at h0
      have hne : (items page).isEmpty = false := by
        cases hit : items page with
        | nil => exact absurd hit h0.2
        | cons a as => rfl
      have hstep : itemStream fp (m + 1) page
          = items page ++ itemStream fp m (page + 1) := by
        simp [itemStream, h0.1, hne]
      rw [hstep]
      have hrest : itemStream fp m (page + 1) = pageConcat items k (page + 1) := by
        refine ih (page + 1) m (fun j hj => ?_) (by omega) ?_
        · have := hprev (j + 1) (by omega)
          have harith : page + (j + 1) = page + 1 + j := by omega
          rwa [harith] at this
        · have harith : page + (k + 1) = page + 1 + k := by omega
          rwa [harith] at hstop
      rw [hrest]
      rfl

/-- When the whole page budget succeeds with nonempty items, the stream
covers exactly the budgeted pages. -/
lemma itemStream_full (fp : Nat → Option (List BingItem))
    (items : Nat → List BingItem) :
    ∀ (n page : Nat),
      (∀ j, j < n → fp (page + j) = some (items (page + j))
        ∧ items (page + j) ≠ []) →
      itemStream fp n page = pageConcat items n page := by
  intro n
  induction n with
  | zero => intro page _; rfl
  | succ m ih =>
    intro page hall
    have h0 := hall 0 (Nat.succ_pos m)
    rw [Nat.add_zero] at h0
    have hne : (items page).isEmpty = false := by
      cases hit : items page with
      | nil => exact absurd hit h0.2
      | cons a as => rfl
    have hstep : itemStream fp (m + 1) page
        = items page ++ itemStream fp m (page + 1) := by
      simp [itemStream, h0.1, hne]
    rw [hstep, ih (page + 1) (fun j hj => by
      have := hall (j + 1) (by omega)
      have harith : page + (j + 1) = page + 1 + j := by omega
      rwa [harith] at this)]
    rfl

/-- C9.  Pagination never escalates: if the first `k` pages yield items
and page `k` (still inside the `max_pages` budget) raises an exception
(modelled as the `none` page outcome, which the source catches and turns
into `break`) or yields zero result elements, the call returns exactly
the de-duplicated hits of the first `k` pages; and when every budgeted
page yields items, it returns the de-duplicated hits of the full budget
(the page bound stops it). -/
theorem search_pagination_stops (fp : Nat → Option (List BingItem))
    (items : Nat → List BingItem) (k max_pages : Nat) :
    (k < max_pages →
      (∀ j, j < k → fp j = some (items j) ∧ items j ≠ []) →
      (fp k = none ∨ fp k = some []) →
      search_urls_bing_news fp max_pages
        = firstOccurrences [] (pageConcat items k 0)) ∧
    ((∀ j, j < max_pages → fp j = some (items j) ∧ items j ≠ []) →
      search_urls_bing_news fp max_pages
        = firstOccurrences [] (pageConcat items max_pages 0)) := by
  constructor
  · intro hk hprev hstop
    rw [show search_urls_bing_news fp max_pages
        = firstOccurrences [] (itemStream fp max_pages 0)
      from searchPages_eq fp max_pages 0 []]
    rw [itemStream_eq_pageConcat fp items k 0 max_pages
      (fun j hj => by simpa using hprev j hj) hk (by simpa using hstop)]
  · intro hall
    rw [show search_urls_bing_news fp max_pages
        = firstOccurrences [] (itemStream fp max_pages 0)
      from searchPages_eq fp max_pages 0 []]
    rw [itemStream_full fp items max_pages 0
      (fun j hj => by simpa using hall j hj)]

/-- Instantiation of the C9 theorem: page 0 yields one item, page 1
raises; with a budget of 5 pages the call stops early and returns the
single de-duplicated hit of page 0. -/
theorem search_pagination_stops_witness :
    search_urls_bing_news
      (fun p => if p = 0 then some [⟨"t", some "https://u.example"⟩] else none) 5
    = firstOccurrences []
        (pageConcat (fun _ => [⟨"t", some "https://u.example"⟩]) 1 0) := by
  refine (search_pagination_stops
    (fun p => if p = 0 then some [⟨"t", some "https://u.example"⟩] else none)
    (fun _ => [⟨"t", some "https://u.example"⟩]) 1 5).1 (by omega)
    (fun j hj => ?_) (Or.inl rfl)
  have hj0 : j = 0 := by omega
  subst hj0
  exact ⟨rfl, by simp⟩

end MediaTracker
